import Mathlib

/-!
Verification development for the sonar-tools issue engine
(`sonarqube/issues.py`): diff normalization, changelog/timeline
construction, sibling matching, changelog replication, CSV projection and
the adaptive search windower.

Python dictionaries and exceptions are embedded explicitly: a fallible
computation returns `Except String α` where the error string names the
Python exception, mutation of an `Issue` object is explicit state passing
(each method returns the updated issue alongside its result), and the
Python `dict` built by `get_all_events` is an association list with
insert-or-overwrite semantics.
-/

set_option autoImplicit false

namespace SonarTools

/-- Embedding of `str(x)` applied to an optional string: Python renders `None` as `"None"`. -/
def pyStr : Option String → String
  | some s => s
  | none => "None"

/-- Accessing `d[k]` on an optional field: raises `KeyError` when absent. -/
def pyAccess (o : Option String) (k : String) : Except String String :=
  match o with
  | some v => .ok v
  | none => .error ("KeyError: " ++ k)

/-- One raw diff record of a changelog entry: `{key, oldValue?, newValue?}`. -/
structure RawDiff where
  key : String
  oldValue : Option String
  newValue : Option String
  deriving DecidableEq, Repr

/-- One raw changelog entry: `{creationDate, diffs}`. -/
structure RawEntry where
  creationDate : String
  diffs : List RawDiff
  deriving DecidableEq, Repr

/-- One raw comment record: `{createdAt, markdown}`. -/
structure RawComment where
  createdAt : String
  markdown : String
  deriving DecidableEq, Repr

/-- A normalized event dict `{event, value}` as produced by the diff normalizer. -/
structure DEvent where
  event : String
  value : Option String
  deriving DecidableEq, Repr

/-- A changelog/timeline entry `{date, event, value}` as cached on an issue. -/
structure ChangeEvent where
  date : String
  event : String
  value : Option String
  deriving DecidableEq, Repr

/-- The keys present in the Python dict for a raw diff record. -/
def RawDiff.dictKeys (d : RawDiff) : List String :=
  ["key"]
    ++ (if d.oldValue.isSome then ["oldValue"] else [])
    ++ (if d.newValue.isSome then ["newValue"] else [])

/-- Function `resolution_diff_to_changelog(newval)` from `issues.py`. -/
def resolution_diff_to_changelog (newval : String) : DEvent :=
  if newval = "FALSE-POSITIVE" then ⟨"transition", some "falsepositive"⟩
  else if newval = "WONTFIX" then ⟨"transition", some "wontfix"⟩
  else if newval = "FIXED" then ⟨"fixed", none⟩
  else ⟨"unknown", none⟩

/-- Function `reopen_diff_to_changelog(oldval)` from `issues.py`. -/
def reopen_diff_to_changelog (oldval : String) : DEvent :=
  if oldval = "CONFIRMED" then ⟨"transition", some "unconfirm"⟩
  else ⟨"transition", some "reopen"⟩

/-- Function `assignee_diff_to_changelog(d)` from `issues.py`.  The source tests
`d['newValue'] in d`, i.e. whether the *value* of `newValue` occurs among
the dict's *keys*; it raises `KeyError` when `newValue` is absent. -/
def assignee_diff_to_changelog (d : RawDiff) : Except String DEvent := do
  let v ← pyAccess d.newValue "newValue"
  if v ∈ d.dictKeys then
    return ⟨"assign", some v⟩
  return ⟨"unassign", none⟩

/-- Function `get_event_from_diff(diff)` from `issues.py`: a chain of independent
`if` statements, each of which may overwrite `event`; `diff['newValue']`
is read unconditionally at the top and raises `KeyError` when absent;
`diff['oldValue']` is read (and may raise) only inside the branches that
use it. -/
def get_event_from_diff (diff : RawDiff) : Except String (Option DEvent) := do
  let dkey := diff.key
  let dnewval ← pyAccess diff.newValue "newValue"
  let event : Option DEvent := none
  let event := if dkey = "severity" ∨ dkey = "type" ∨ dkey = "tags"
    then some ⟨dkey, some dnewval⟩ else event
  let event := if dkey = "resolution" ∧ diff.newValue.isSome
    then some (resolution_diff_to_changelog dnewval) else event
  let event := if dkey = "status" ∧ diff.newValue.isSome ∧ dnewval = "CONFIRMED"
    then some ⟨"transition", some "confirm"⟩ else event
  let event ← if dkey = "status" ∧ diff.newValue.isSome ∧ dnewval = "REOPENED"
    then do
      let oldv ← pyAccess diff.oldValue "oldValue"
      pure (some (reopen_diff_to_changelog oldv))
    else pure event
  let event ← if dkey = "status" ∧ diff.newValue.isSome ∧ dnewval = "OPEN"
    then do
      let oldv ← pyAccess diff.oldValue "oldValue"
      pure (if oldv = "CLOSED" then some ⟨"transition", some "reopen"⟩ else event)
    else pure event
  let event ← if dkey = "assignee"
    then do
      let e ← assignee_diff_to_changelog diff
      pure (some e)
    else pure event
  let event ← if dkey = "from_short_branch"
    then do
      let oldv ← pyAccess diff.oldValue "oldValue"
      pure (some ⟨"merge", some (oldv ++ " -> " ++ dnewval)⟩)
    else pure event
  let event ← if dkey = "effort"
    then do
      let oldv ← pyAccess diff.oldValue "oldValue"
      pure (some ⟨"effort", some (oldv ++ " -> " ++ dnewval)⟩)
    else pure event
  return event

/-- Function `diff_to_changelog(diffs)` from `issues.py`: the first diff that
normalizes to an event decides; otherwise kind `unknown`. -/
def diff_to_changelog : List RawDiff → Except String DEvent
  | [] => .ok ⟨"unknown", none⟩
  | d :: rest => do
    let ev ← get_event_from_diff d
    match ev with
    | some e => return e
    | none => diff_to_changelog rest

/-! ## The Issue object

Mutation of a Python `Issue` is embedded as explicit state passing: each
method returns its value together with the updated issue.  The fields
`changelog`, `comments` and `url` are the lazily-filled caches of the
Python object; `raw_changelog` is the (already fetched) server response
of `issues/changelog` for this issue, and `json_comments` models
`self.json['comments']` (`none` when the key is absent). -/

structure Issue where
  key : String
  rule : Option String
  hash : Option String
  component : Option String
  message : Option String
  debt : Option String
  type : Option String
  severity : Option String
  status : Option String
  line : Option Nat
  creation_date : String
  modification_date : String
  project : String
  env_url : String
  url : Option String
  changelog : Option (List ChangeEvent)
  comments : Option (List ChangeEvent)
  raw_changelog : List RawEntry
  json_comments : Option (List RawComment)
  deriving DecidableEq, Repr

/-- The loop body of `Issue.get_changelog`: normalize every raw entry's
diffs, in order, into `{date, event, value}` records. -/
def build_changelog : List RawEntry → Except String (List ChangeEvent)
  | [] => .ok []
  | l :: rest =>
    match diff_to_changelog l.diffs with
    | .error e => .error e
    | .ok d =>
      match build_changelog rest with
      | .error e => .error e
      | .ok tail => .ok (⟨l.creationDate, d.event, d.value⟩ :: tail)

/-- Method `Issue.get_changelog(force_api)`: fetch and normalize on first use
(or when forced), cache the result, return the cached list otherwise. -/
def Issue.get_changelog (i : Issue) (force_api : Bool) : Except String (List ChangeEvent × Issue) :=
  match i.changelog, force_api with
  | some cl, false => .ok (cl, i)
  | _, _ =>
    match build_changelog i.raw_changelog with
    | .error e => .error e
    | .ok evs => .ok (evs, { i with changelog := some evs })

/-- Method `Issue.has_changelog()`: true when the (cached) changelog is non-empty. -/
def Issue.has_changelog (i : Issue) : Except String (Bool × Issue) :=
  match i.get_changelog false with
  | .error e => .error e
  | .ok (cl, i') => .ok (cl.length > 0, i')

/-- Method `Issue.get_comments()`: reset to `[]` when the search JSON has no
`comments` key, otherwise build (once) from the raw comment records. -/
def Issue.get_comments (i : Issue) : List ChangeEvent × Issue :=
  match i.json_comments with
  | none => ([], { i with comments := some [] })
  | some raw =>
    match i.comments with
    | none =>
      let cs := raw.map (fun c => ⟨c.createdAt, "comment", some c.markdown⟩)
      (cs, { i with comments := some cs })
    | some cs => (cs, i)

/-- Python-dict insertion: overwrite in place when the key exists,
append otherwise. -/
def pyDictInsert (m : List (String × ChangeEvent)) (k : String) (v : ChangeEvent) :
    List (String × ChangeEvent) :=
  if m.any (fun p => p.1 = k) then m.map (fun p => if p.1 = k then (k, v) else p)
  else m ++ [(k, v)]

/-- The `bydate` loop of `Issue.get_all_events`: key every event by its
date in a Python dict. -/
def bydateFold (m : List (String × ChangeEvent)) : List ChangeEvent → List (String × ChangeEvent)
  | [] => m
  | e :: rest => bydateFold (pyDictInsert m e.date e) rest

/-- The `bydate` dict of `Issue.get_all_events` built from an empty dict. -/
def bydate (events : List ChangeEvent) : List (String × ChangeEvent) :=
  bydateFold [] events

/-- Method `Issue.get_all_events(is_sorted=False)`.  `events` aliases
`self.changelog`, so appending the comments to it also mutates the
issue's changelog cache. -/
def Issue.get_all_events_list (i : Issue) : Except String (List ChangeEvent × Issue) :=
  match i.get_changelog false with
  | .error e => .error e
  | .ok (events, i₁) =>
    let (comments, i₂) := i₁.get_comments
    let all := events ++ comments
    .ok (all, { i₂ with changelog := some all })

/-- Method `Issue.get_all_events(is_sorted=True)`: the same mutation, then the
result is keyed by date in a Python dict. -/
def Issue.get_all_events_sorted (i : Issue) :
    Except String (List (String × ChangeEvent) × Issue) :=
  match i.get_all_events_list with
  | .error e => .error e
  | .ok (all, i') => .ok (bydate all, i')

/-- Method `Issue.get_url()`: formats and caches the issue's UI URL. -/
def Issue.get_url (i : Issue) : String × Issue :=
  match i.url with
  | some u => (u, i)
  | none =>
    let u := i.env_url ++ "/project/issues?id=" ++ pyStr i.component ++ "&issues=" ++ i.key
    (u, { i with url := some u })

/-! ## Sibling matching -/

/-- Method `Issue.match(another_issue)` (named `matchLevel` here because `match`
is a Lean keyword): 0 when rule or hash differ, else 1 minus 0.1 per
mismatch among component, message and debt.  Python floats are embedded
as rationals. -/
def Issue.matchLevel (i another_issue : Issue) : ℚ :=
  if i.rule ≠ another_issue.rule ∨ i.hash ≠ another_issue.hash then 0
  else
    let m : ℚ := 1
    let m := if i.component ≠ another_issue.component then m - 1/10 else m
    let m := if i.message ≠ another_issue.message then m - 1/10 else m
    let m := if i.debt ≠ another_issue.debt then m - 1/10 else m
    m

/-- Conjunction of `Issue.__same_rule`, `__same_hash` and `__same_message`, as in
`same_general_attributes`. -/
def Issue.same_general_attributes (i another_issue : Issue) : Bool :=
  i.rule = another_issue.rule ∧ i.hash = another_issue.hash ∧ i.message = another_issue.message

/-- Method `Issue.is_hotspot()`. -/
def Issue.is_hotspot (i : Issue) : Bool :=
  i.type = some "SECURITY_HOTSPOT"

/-- Method `Issue.identical_to(another_issue, ignore_component)`. -/
def Issue.identical_to (i another_issue : Issue) (ignore_component : Bool) : Bool :=
  if ¬ i.same_general_attributes another_issue
      ∨ (i.component ≠ another_issue.component ∧ ¬ ignore_component) then
    false
  else if ¬ i.is_hotspot ∧ ¬ another_issue.is_hotspot ∧ i.debt ≠ another_issue.debt then
    false
  else
    true

/-- Function `search_siblings(an_issue, issue_list, only_new_issues, check_component)`.
Python appends the very issue object from the pool, on which
`has_changelog()` may just have filled the changelog cache; the
short-circuit of `not only_new_issues or (...)` means `has_changelog` is
not even called when `only_new_issues` is false. -/
def search_siblings (an_issue : Issue) (issue_list : List Issue)
    (only_new_issues check_component : Bool) : Except String (List Issue) :=
  match issue_list with
  | [] => .ok []
  | issue :: rest =>
    if issue.identical_to an_issue (!check_component) then
      if !only_new_issues then
        match search_siblings an_issue rest only_new_issues check_component with
        | .error e => .error e
        | .ok tail => .ok (issue :: tail)
      else
        match issue.has_changelog with
        | .error e => .error e
        | .ok (hc, issue') =>
          match search_siblings an_issue rest only_new_issues check_component with
          | .error e => .error e
          | .ok tail => if !hc then .ok (issue' :: tail) else .ok tail
    else
      search_siblings an_issue rest only_new_issues check_component

/-- Strip the changelog cache, to compare a pool member with the object
`search_siblings` returned for it. -/
def Issue.uncache (i : Issue) : Issue :=
  { i with changelog := none }

/-! ## Changelog replication -/

/-- A state-changing request issued against the target issue. -/
inductive Op where
  | add_comment (issue text : String)
  | set_severity (issue severity : String)
  | set_type (issue new_type : String)
  | assign (issue assignee : String)
  | set_tags (issue tags : String)
  | do_transition (issue transition : String)
  deriving DecidableEq, Repr

/-- Function `apply_changelog(target_issue, source_issue)`: refuse when the target
already has a changelog; return silently when the source has no events;
otherwise post the introductory comment and then hit
`events.iterkeys()` — a Python 2 method that does not exist on a
Python 3 dict, so an `AttributeError` is raised before any event is
dispatched.  Result: (operations issued, raised exception if any,
updated target, updated source). -/
def apply_changelog (target_issue source_issue : Issue) :
    List Op × Option String × Issue × Issue :=
  match target_issue.has_changelog with
  | .error e => ([], some e, target_issue, source_issue)
  | .ok (hc, t') =>
    if hc then ([], none, t', source_issue)
    else
      match source_issue.get_all_events_sorted with
      | .error e => ([], some e, t', source_issue)
      | .ok (events, s') =>
        if events.isEmpty then ([], none, t', s')
        else
          let (u, s'') := s'.get_url
          ([Op.add_comment t'.key ("Synchronized from [this original issue](" ++ u ++ ")")],
           some "AttributeError: dict object has no attribute iterkeys", t', s'')

/-! ## CSV projection -/

/-- Numeric value of a run of decimal digits. -/
def digitsToNat (ds : List Char) : Nat :=
  ds.foldl (fun n c => n * 10 + (c.toNat - '0'.toNat)) 0

/-- Model of `re.search(r'(\d+)' + lit, s)`: the digit group of the first
occurrence of a digit run immediately followed by `lit`.  Because each
literal used by `to_csv` starts with a non-digit, the greedy `\d+` never
backtracks: a match at a position is the maximal digit run there,
accepted only when `lit` follows it. -/
def searchNumLit (lit : List Char) : List Char → Option Nat
  | [] => none
  | c :: rest =>
    if c.isDigit then
      let run := (c :: rest).takeWhile Char.isDigit
      let after := (c :: rest).dropWhile Char.isDigit
      if lit.isPrefixOf after then some (digitsToNat run) else searchNumLit lit rest
    else searchNumLit lit rest

/-- Model of `re.sub(r"T.*", "", s)` (and `re.sub(r"\+.*", "", s)`): keep
everything before the first occurrence of the character. -/
def takeBeforeChar (c : Char) (s : String) : String :=
  ⟨s.toList.takeWhile (fun x => x ≠ c)⟩

/-- Model of `re.sub(r".*T", "", s)`: the greedy `.*` eats through the last `T`,
so keep everything after the last occurrence (the whole string when the
character is absent). -/
def afterLastChar (c : Char) (s : String) : String :=
  ⟨(s.toList.reverse.takeWhile (fun x => x ≠ c)).reverse⟩

/-- Model of `re.sub('"', '""', msg)`. -/
def escapeQuotes (s : String) : String :=
  ⟨(s.toList.map (fun c => if c = '"' then ['"', '"'] else [c])).flatten⟩

/-- The debt-minutes computation of `Issue.to_csv`: four independent
regex searches over the compound duration string, each missing component
zero, combined as `((kd*1000 + d)*24 + h)*60 + min`. -/
def debtMinutes : Option String → Nat
  | none => 0
  | some ds =>
    let kdays := (searchNumLit ['k', 'd'] ds.toList).getD 0
    let days := (searchNumLit ['d'] ds.toList).getD 0
    let hours := (searchNumLit ['h'] ds.toList).getD 0
    let minutes := (searchNumLit ['m', 'i', 'n'] ds.toList).getD 0
    ((kdays * 1000 + days) * 24 + hours) * 60 + minutes

/-- The field list of `Issue.to_csv` (before `';'.join`).  `get_name`
stands for `projects.get_name(self.project, self.env)`, a lookup living
in the `projects` module outside this file.  `re.sub` on a `None`
message raises `TypeError`. -/
def Issue.csv_fields (i : Issue) (get_name : String → String) : Except String (List String) :=
  match i.message with
  | none => .error "TypeError: expected string or bytes-like object"
  | some message =>
    let debt := debtMinutes i.debt
    let cdate := takeBeforeChar 'T' i.creation_date
    let ctime := takeBeforeChar '+' (afterLastChar 'T' i.creation_date)
    let mdate := takeBeforeChar 'T' i.modification_date
    let mtime := takeBeforeChar '+' (afterLastChar 'T' i.modification_date)
    let msg := escapeQuotes message
    let line := match i.line with
      | none => "-"
      | some n => toString n
    .ok [i.key, pyStr i.rule, pyStr i.type, pyStr i.severity, pyStr i.status,
         cdate, ctime, mdate, mtime, i.project, get_name i.project,
         pyStr i.component, line, toString debt, "\"" ++ msg ++ "\""]

/-- Method `Issue.to_csv()`: the semicolon-joined projection. -/
def Issue.to_csv (i : Issue) (get_name : String → String) : Except String String := do
  let fields ← i.csv_fields get_name
  return String.intercalate ";" fields

/-! ## Adaptive search windower

The network is abstracted by oracles: `searchW start stop` is the issue
list returned by `search_all_issues` for the window
`createdAfter=start, createdBefore=stop`, and `searchDaily day severity t`
the list returned for one `(severity, type)` partition of one day.
Dates are embedded as days (`Int`); issues as opaque identifiers. -/

def MAX_ISSUE_SEARCH : Nat := 10000

/-- Function `search_project_daily_issues`: accumulate the per-severity,
per-type partitions of one day. -/
def search_project_daily_issues (searchST : String → String → List Nat)
    (severities types : List String) : List Nat :=
  severities.foldl
    (fun issues severity => types.foldl (fun acc t => acc ++ searchST severity t) issues) []

/-- The inner `while not sliced_enough` loop of `search_project_issues`
for one window start: accept the window when the fetch is not saturated,
fall back to the per-day partition when the slice is already zero-width,
otherwise halve the slice and retry.  Returns the issues found together
with the slice width at which the window was accepted. -/
def slice_window (searchW : Int → Int → List Nat)
    (searchDaily : Int → String → String → List Nat)
    (severities types : List String) (window_start : Int) (current_slice : Nat) :
    List Nat × Nat :=
  let found := searchW window_start (window_start + current_slice)
  if found.length < MAX_ISSUE_SEARCH then (found, current_slice)
  else if h : current_slice = 0 then
    (search_project_daily_issues (searchDaily window_start) severities types, current_slice)
  else
    slice_window searchW searchDaily severities types window_start (current_slice / 2)
termination_by current_slice
decreasing_by omega

/-- The outer `while window_start <= enddate` loop of
`search_project_issues`: each accepted window advances the start to one
day past the window stop. -/
def search_windows (searchW : Int → Int → List Nat)
    (searchDaily : Int → String → String → List Nat)
    (severities types : List String) (window_start enddate : Int) (days_slice : Nat) :
    List Nat :=
  if _h : window_start ≤ enddate then
    let r := slice_window searchW searchDaily severities types window_start days_slice
    r.1 ++ search_windows searchW searchDaily severities types
            (window_start + r.2 + 1) enddate days_slice
  else []
termination_by (enddate + 1 - window_start).toNat
decreasing_by omega

/-- Function `search_project_issues(key, ...)`: empty when no issue exists,
otherwise slice the span `[oldest, newest]` starting from the estimated
initial window width. -/
def search_project_issues (oldest : Option Int) (newest : Int) (nbr_issues : Nat)
    (searchW : Int → Int → List Nat) (searchDaily : Int → String → String → List Nat)
    (severities types : List String) : List Nat :=
  match oldest with
  | none => []
  | some startdate =>
    let days_slice := (newest - startdate).natAbs + 1
    let days_slice :=
      if nbr_issues > MAX_ISSUE_SEARCH then (MAX_ISSUE_SEARCH * days_slice) / (nbr_issues * 4)
      else days_slice
    search_windows searchW searchDaily severities types startdate newest days_slice

/-! ## Concrete fixtures -/

/-- A well-formed issue as deserialized from one search-result record. -/
def baseIssue : Issue :=
  { key := "I1", rule := some "S1", hash := some "h1", component := some "comp1",
    message := some "msg", debt := some "10min", type := some "BUG",
    severity := some "MAJOR", status := some "OPEN", line := some 3,
    creation_date := "2020-01-01T10:00:00+0000",
    modification_date := "2020-01-02T11:30:00+0000", project := "P1",
    env_url := "http://sq", url := none, changelog := none, comments := none,
    raw_changelog := [], json_comments := none }

/-- A source issue carrying one severity-change changelog event. -/
def srcIssue : Issue := { baseIssue with
  key := "S0",
  raw_changelog := [⟨"2020-01-05T00:00:00+0000", [⟨"severity", some "MINOR", some "MAJOR"⟩]⟩] }

/-- A virgin target issue: no changelog, no comments. -/
def tgtIssue : Issue := { baseIssue with key := "T0" }

/-- An issue whose changelog is empty but which carries one comment, so
its combined timeline is non-empty. -/
def commentedIssue : Issue := { baseIssue with
  key := "TC",
  json_comments := some [⟨"2020-01-03T00:00:00+0000", "a comment"⟩] }

/-- The combined timeline size of an issue: length of changelog events
plus comment events (0 when the changelog fails to parse). -/
def timeline_size (i : Issue) : Nat :=
  match i.get_all_events_list with
  | .error _ => 0
  | .ok (l, _) => l.length

/-- A concrete issue with compound debt and no line number. -/
def csvIssue : Issue := { baseIssue with debt := some "1kd2d3h4min", line := none }

/-- The project-name lookup used by the CSV fixtures. -/
def csvName : String → String := fun _ => "PName"

/-- The CSV fields computed for `csvIssue`. -/
def csvFs : List String := (csvIssue.csv_fields csvName).toOption.getD []

/-- A target issue with one raw changelog entry. -/
def histIssue : Issue := { baseIssue with
  key := "T2",
  raw_changelog := [⟨"2020-01-06T00:00:00+0000", [⟨"severity", some "MINOR", some "MAJOR"⟩]⟩] }

/-- The issue `histIssue` after its changelog cache has been filled. -/
def histCached : Issue := { histIssue with
  changelog := some [⟨"2020-01-06T00:00:00+0000", "severity", some "MAJOR"⟩] }

/-- The issue `commentedIssue` after `search_siblings` filled its changelog cache. -/
def commentedCached : Issue := { commentedIssue with changelog := some [] }

/-- An issue with a changelog event and a comment at the same instant. -/
def dupIssue : Issue := { baseIssue with
  key := "D1",
  raw_changelog := [⟨"2020-03-01T00:00:00+0000", [⟨"severity", some "MINOR", some "MAJOR"⟩]⟩],
  json_comments := some [⟨"2020-03-01T00:00:00+0000", "dup"⟩] }

/-- The combined event list of `dupIssue`: two events, one timestamp. -/
def dupEvs : List ChangeEvent :=
  [⟨"2020-03-01T00:00:00+0000", "severity", some "MAJOR"⟩,
   ⟨"2020-03-01T00:00:00+0000", "comment", some "dup"⟩]

/-- The issue `dupIssue` after `get_all_events` filled (and polluted) its caches. -/
def dupCached : Issue := { dupIssue with
  changelog := some dupEvs,
  comments := some [⟨"2020-03-01T00:00:00+0000", "comment", some "dup"⟩] }

/-- An issue with one comment and no changelog entries. -/
def memIssue : Issue := { baseIssue with
  key := "M1",
  json_comments := some [⟨"2020-02-01T00:00:00+0000", "hello"⟩] }

/-- The comment event of `memIssue`. -/
def memComment : ChangeEvent := ⟨"2020-02-01T00:00:00+0000", "comment", some "hello"⟩

/-- The issue `memIssue` after one `get_all_events` call: the comment leaked into
the changelog cache. -/
def memCached : Issue := { memIssue with
  changelog := some [memComment], comments := some [memComment] }

/-- A search oracle that never finds anything. -/
def emptySearchW : Int → Int → List Nat := fun _ _ => []

/-- A daily-partition oracle that never finds anything. -/
def emptySearchDaily : Int → String → String → List Nat := fun _ _ _ => []

/-! ## C1: match scoring -/

/-- C1: `Issue.match` returns 1 when rule, hash, component, message and
debt all agree, 7/10 when rule and hash agree but component, message and
debt all differ, 0 whenever rule or hash differ, and always lies in
[0, 1]. -/
theorem matchLevel_spec (a b : Issue) :
    (a.rule = b.rule ∧ a.hash = b.hash ∧ a.component = b.component
        ∧ a.message = b.message ∧ a.debt = b.debt → a.matchLevel b = 1)
  ∧ (a.rule = b.rule ∧ a.hash = b.hash ∧ a.component ≠ b.component
        ∧ a.message ≠ b.message ∧ a.debt ≠ b.debt → a.matchLevel b = 7/10)
  ∧ ((a.rule ≠ b.rule ∨ a.hash ≠ b.hash) → a.matchLevel b = 0)
  ∧ 0 ≤ a.matchLevel b ∧ a.matchLevel b ≤ 1 := by
  unfold Issue.matchLevel
  split_ifs <;> simp_all <;> try norm_num
  all_goals tauto

/-- Witness for C1 at concrete issues differing only in rule. -/
theorem matchLevel_spec_witness :
    baseIssue.matchLevel { baseIssue with rule := some "S2" } = 0 :=
  (matchLevel_spec baseIssue { baseIssue with rule := some "S2" }).2.2.1
    (Or.inl (by decide))

/-! ## C2: assignee diffs -/

/-- C2 (code bug): a diff set whose first diff has key `assignee` and a
present `newValue` is normalized to an `unassign` event, not to
`assign(newValue)`, because `assignee_diff_to_changelog` tests
`d['newValue'] in d` — the value of `newValue` among the dict's keys —
instead of `'newValue' in d`; with `newValue` absent the normalizer
raises `KeyError` instead of returning `unassign`. -/
theorem assignee_newValue_yields_unassign :
    diff_to_changelog [⟨"assignee", none, some "john.doe"⟩] = .ok ⟨"unassign", none⟩
  ∧ diff_to_changelog [⟨"assignee", some "jane", none⟩] = .error "KeyError: newValue" :=
  ⟨rfl, rfl⟩

/-! ## C5: replication dispatch -/

/-- C5 (code bug): with a virgin target and a source holding one event,
`apply_changelog` posts the introductory comment and then raises
`AttributeError` (`dict.iterkeys` does not exist in Python 3) before
dispatching a single timeline event. -/
theorem apply_changelog_raises_before_dispatch :
    (apply_changelog tgtIssue srcIssue).1
      = [Op.add_comment "T0"
          "Synchronized from [this original issue](http://sq/project/issues?id=comp1&issues=S0)"]
  ∧ (apply_changelog tgtIssue srcIssue).2.1
      = some "AttributeError: dict object has no attribute iterkeys" :=
  ⟨rfl, rfl⟩

/-! ## C8: unrecognized diff sets -/

/-- C8 (code bug): a diff set with no recognized key is not normalized to
an `unknown` event when a diff lacks `newValue`: `get_event_from_diff`
reads `diff['newValue']` unconditionally and raises `KeyError`.  (The
`unknown` result does obtain when every diff carries a `newValue`.) -/
theorem diff_without_newValue_raises_keyerror :
    diff_to_changelog [⟨"other", some "x", none⟩] = .error "KeyError: newValue"
  ∧ diff_to_changelog [⟨"other", some "x", some "y"⟩] = .ok ⟨"unknown", none⟩ :=
  ⟨rfl, rfl⟩

/-! ## C9: CSV projection -/

/-- C9: in the CSV projection, debt string `"1kd2d3h4min"` yields
1443064 minutes, a `None` debt yields 0, and a missing line number
yields the literal `-`. -/
theorem to_csv_debt_and_line_spec (i : Issue) (g : String → String) (fs : List String)
    (h : i.csv_fields g = .ok fs) :
    (i.debt = some "1kd2d3h4min" → fs.get? 13 = some "1443064")
  ∧ (i.debt = none → fs.get? 13 = some "0")
  ∧ (i.line = none → fs.get? 12 = some "-") := by
  match hm : i.message with
  | none => simp [Issue.csv_fields, hm] at h
  | some msg =>
    simp only [Issue.csv_fields, hm, Except.ok.injEq] at h
    subst h
    refine ⟨fun hd => ?_, fun hd => ?_, fun hl => ?_⟩
    · rw [hd]; rfl
    · rw [hd]; rfl
    · rw [hl]; rfl

/-- Witness for C9 at a concrete issue with compound debt and no line. -/
theorem to_csv_debt_and_line_spec_witness :
    csvFs.get? 13 = some "1443064" ∧ csvFs.get? 12 = some "-" :=
  ⟨(to_csv_debt_and_line_spec csvIssue csvName csvFs rfl).1 rfl,
   (to_csv_debt_and_line_spec csvIssue csvName csvFs rfl).2.2 rfl⟩

/-! ## Shape lemmas for the cached accessors -/

theorem get_changelog_shape (i : Issue) (cl : List ChangeEvent) (i' : Issue)
    (h : i.get_changelog false = .ok (cl, i')) :
    i'.changelog = some cl ∧ i'.get_changelog false = .ok (cl, i')
      ∧ i'.uncache = i.uncache := by
  unfold Issue.get_changelog at h ⊢
  cases hc : i.changelog with
  | some cl0 =>
    rw [hc] at h
    simp only [Except.ok.injEq, Prod.mk.injEq] at h
    obtain ⟨rfl, rfl⟩ := h
    simp [hc]
  | none =>
    rw [hc] at h
    cases hb : build_changelog i.raw_changelog with
    | error e => rw [hb] at h; exact absurd h (by simp)
    | ok evs =>
      rw [hb] at h
      simp only [Except.ok.injEq, Prod.mk.injEq] at h
      obtain ⟨rfl, rfl⟩ := h
      exact ⟨rfl, rfl, rfl⟩

theorem get_comments_shape (i : Issue) (cs : List ChangeEvent) (i' : Issue)
    (h : i.get_comments = (cs, i')) (hne : cs ≠ []) :
    i'.json_comments = i.json_comments ∧ i'.comments = some cs
      ∧ ∃ raw, i.json_comments = some raw := by
  unfold Issue.get_comments at h
  cases hj : i.json_comments with
  | none =>
    rw [hj] at h
    simp only [Prod.mk.injEq] at h
    exact absurd h.1.symm hne
  | some raw =>
    rw [hj] at h
    cases hco : i.comments with
    | none =>
      rw [hco] at h
      simp only [Prod.mk.injEq] at h
      obtain ⟨rfl, rfl⟩ := h
      exact ⟨rfl, rfl, raw, rfl⟩
    | some cs0 =>
      rw [hco] at h
      simp only [Prod.mk.injEq] at h
      obtain ⟨rfl, rfl⟩ := h
      exact ⟨hj, hco, raw, rfl⟩

/-! ## C4: refusal on targets with history -/

/-- C4 (amended: the code refuses a target with a non-empty *changelog*,
not a non-empty timeline): when the target's parsed changelog is
non-empty, `apply_changelog` issues no operation, raises nothing and
returns; a second call on the returned (cache-filled) target is likewise
a no-op. -/
theorem apply_changelog_refuses_existing_changelog
    (target source : Issue) (cl : List ChangeEvent) (t' : Issue)
    (h : target.get_changelog false = .ok (cl, t')) (hne : cl ≠ []) :
    apply_changelog target source = ([], none, t', source)
  ∧ apply_changelog t' source = ([], none, t', source) := by
  obtain ⟨hcache, hself, _⟩ := get_changelog_shape target cl t' h
  have h1 : target.has_changelog = .ok (true, t') := by
    unfold Issue.has_changelog
    rw [h]
    simp [List.length_pos, hne]
  have h2 : t'.has_changelog = .ok (true, t') := by
    unfold Issue.has_changelog
    rw [hself]
    simp [List.length_pos, hne]
  constructor
  · unfold apply_changelog
    rw [h1]
    simp
  · unfold apply_changelog
    rw [h2]
    simp

/-- C4 counterexample: a target whose changelog is empty but whose
timeline (changelog plus comments) is non-empty is not refused:
`apply_changelog` posts the introductory comment on it and then
raises. -/
theorem apply_changelog_comments_only_target_not_refused :
    timeline_size commentedIssue = 1
  ∧ (apply_changelog commentedIssue srcIssue).1
      = [Op.add_comment "TC"
          "Synchronized from [this original issue](http://sq/project/issues?id=comp1&issues=S0)"]
  ∧ (apply_changelog commentedIssue srcIssue).2.1
      = some "AttributeError: dict object has no attribute iterkeys" :=
  ⟨rfl, rfl, rfl⟩

/-- Witness for C4: a concrete target with history is refused twice. -/
theorem apply_changelog_refuses_existing_changelog_witness :
    apply_changelog histIssue srcIssue = ([], none, histCached, srcIssue) :=
  (apply_changelog_refuses_existing_changelog histIssue srcIssue
      [⟨"2020-01-06T00:00:00+0000", "severity", some "MAJOR"⟩] histCached rfl
      (by decide)).1

/-! ## C3: sibling search -/

theorem has_changelog_shape (i : Issue) (b : Bool) (i' : Issue)
    (h : i.has_changelog = .ok (b, i')) :
    i'.uncache = i.uncache ∧ (b = false → i'.changelog = some []) := by
  unfold Issue.has_changelog at h
  cases hg : i.get_changelog false with
  | error e => rw [hg] at h; exact absurd h (by simp)
  | ok p =>
    obtain ⟨cl, i''⟩ := p
    rw [hg] at h
    simp only [Except.ok.injEq, Prod.mk.injEq] at h
    obtain ⟨rfl, rfl⟩ := h
    obtain ⟨hcache, -, hun⟩ := get_changelog_shape i cl i'' hg
    refine ⟨hun, fun hb => ?_⟩
    have : cl = [] := by
      have := of_decide_eq_false hb
      simpa [List.length_pos] using this
    rw [this] at hcache
    exact hcache

/-- C3 (amended: with the only-new flag set, `search_siblings` filters on
the *changelog* alone — comments are not considered): every returned
sibling has an empty (cached) changelog, and the output preserves the
relative order of the input pool. -/
theorem search_siblings_only_new_spec (an_issue : Issue) (pool : List Issue)
    (cc : Bool) (res : List Issue)
    (h : search_siblings an_issue pool true cc = .ok res) :
    (∀ i ∈ res, i.changelog = some [])
  ∧ (res.map Issue.uncache).Sublist (pool.map Issue.uncache) := by
  induction pool generalizing res with
  | nil =>
    unfold search_siblings at h
    simp only [Except.ok.injEq] at h
    subst h
    simp
  | cons issue rest ih =>
    unfold search_siblings at h
    by_cases hid : (issue.identical_to an_issue (!cc)) = true
    · rw [if_pos hid] at h
      simp only [Bool.not_true, Bool.false_eq_true, if_false] at h
      cases hhc : issue.has_changelog with
      | error e => rw [hhc] at h; exact absurd h (by simp)
      | ok p =>
        obtain ⟨hc, issue'⟩ := p
        rw [hhc] at h
        cases hrest : search_siblings an_issue rest true cc with
        | error e => rw [hrest] at h; exact absurd h (by simp)
        | ok tail =>
          rw [hrest] at h
          obtain ⟨hun, hempty⟩ := has_changelog_shape issue hc issue' hhc
          obtain ⟨ih1, ih2⟩ := ih tail hrest
          by_cases hb : hc = true
          · rw [hb] at h
            simp only [Bool.not_true, Bool.false_eq_true, if_false, Except.ok.injEq] at h
            subst h
            exact ⟨ih1, ih2.cons _⟩
          · replace hb : hc = false := by simpa using hb
            rw [hb] at h
            simp only [Bool.not_false, if_true, Except.ok.injEq] at h
            subst h
            refine ⟨?_, ?_⟩
            · intro i hi
              rcases List.mem_cons.mp hi with rfl | hi
              · exact hempty hb
              · exact ih1 i hi
            · simpa [hun] using ih2.cons₂ (Issue.uncache issue)
    · rw [if_neg hid] at h
      obtain ⟨ih1, ih2⟩ := ih res h
      exact ⟨ih1, ih2.cons _⟩

/-- C3 counterexample: with only-new set, `search_siblings` returns the
candidate whose changelog is empty but whose timeline (changelog plus
comments) is non-empty. -/
theorem search_siblings_returns_commented_issue :
    search_siblings tgtIssue [commentedIssue] true false = .ok [commentedCached]
  ∧ timeline_size commentedCached = 1 :=
  ⟨rfl, rfl⟩

/-- Witness for C3 on a concrete pool. -/
theorem search_siblings_only_new_spec_witness :
    commentedCached.changelog = some [] :=
  (search_siblings_only_new_spec tgtIssue [commentedIssue] false [commentedCached] rfl).1
    commentedCached (by simp)

/-! ## C6: timestamp collisions in the sorted timeline -/

theorem pyDictInsert_any (m : List (String × ChangeEvent)) (k : String) :
    (m.any (fun p => p.1 = k)) = true ↔ k ∈ m.map Prod.fst := by
  simp only [List.any_eq_true, decide_eq_true_eq, List.mem_map]

theorem pyDictInsert_keys (m : List (String × ChangeEvent)) (k : String) (v : ChangeEvent) :
    (pyDictInsert m k v).map Prod.fst
      = if k ∈ m.map Prod.fst then m.map Prod.fst else m.map Prod.fst ++ [k] := by
  unfold pyDictInsert
  by_cases hk : k ∈ m.map Prod.fst
  · rw [if_pos ((pyDictInsert_any m k).mpr hk), if_pos hk, List.map_map]
    apply List.map_congr_left
    intro p _
    by_cases hp : p.1 = k <;> simp [hp, Function.comp]
  · rw [if_neg (fun hc => hk ((pyDictInsert_any m k).mp hc)), if_neg hk]
    simp

theorem pyDictInsert_length (m : List (String × ChangeEvent)) (k : String) (v : ChangeEvent) :
    (pyDictInsert m k v).length
      = if k ∈ m.map Prod.fst then m.length else m.length + 1 := by
  have h := congrArg List.length (pyDictInsert_keys m k v)
  simpa [apply_ite List.length] using h

theorem pyDictInsert_keys_sub (m : List (String × ChangeEvent)) (k : String)
    (v : ChangeEvent) (k' : String) (h : k' ∈ m.map Prod.fst) :
    k' ∈ (pyDictInsert m k v).map Prod.fst := by
  rw [pyDictInsert_keys]
  split_ifs <;> simp [h]

theorem pyDictInsert_keys_self (m : List (String × ChangeEvent)) (k : String)
    (v : ChangeEvent) : k ∈ (pyDictInsert m k v).map Prod.fst := by
  rw [pyDictInsert_keys]
  split_ifs with h <;> simp [h]

theorem pyDictInsert_nodup (m : List (String × ChangeEvent)) (k : String) (v : ChangeEvent)
    (h : (m.map Prod.fst).Nodup) : ((pyDictInsert m k v).map Prod.fst).Nodup := by
  rw [pyDictInsert_keys]
  split_ifs with hk
  · exact h
  · simp [List.nodup_append, h, hk]

theorem pyDictInsert_mem (m : List (String × ChangeEvent)) (k : String) (v : ChangeEvent)
    (k' : String) (v' : ChangeEvent) (h : (k', v') ∈ pyDictInsert m k v) :
    (k' = k ∧ v' = v) ∨ ((k', v') ∈ m ∧ k' ≠ k) := by
  unfold pyDictInsert at h
  by_cases hk : (m.any fun p => p.1 = k) = true
  · rw [if_pos hk] at h
    obtain ⟨p, hp, hfp⟩ := List.mem_map.mp h
    by_cases hpk : p.1 = k
    · rw [if_pos hpk] at hfp
      injection hfp with h1 h2
      exact Or.inl ⟨h1.symm, h2.symm⟩
    · rw [if_neg hpk] at hfp
      subst hfp
      exact Or.inr ⟨hp, hpk⟩
  · rw [if_neg hk] at h
    rcases List.mem_append.mp h with hm | hs
    · refine Or.inr ⟨hm, fun hkk => hk ?_⟩
      subst hkk
      exact (pyDictInsert_any m k').mpr (List.mem_map.mpr ⟨(k', v'), hm, rfl⟩)
    · rw [List.mem_singleton] at hs
      injection hs with h1 h2
      exact Or.inl ⟨h1, h2⟩

theorem bydateFold_length_le (evs : List ChangeEvent) :
    ∀ m, (bydateFold m evs).length ≤ m.length + evs.length := by
  induction evs with
  | nil => intro m; simp [bydateFold]
  | cons e rest ih =>
    intro m
    have h1 := ih (pyDictInsert m e.date e)
    have h2 : (pyDictInsert m e.date e).length ≤ m.length + 1 := by
      rw [pyDictInsert_length]; split_ifs <;> omega
    simp only [bydateFold, List.length_cons]
    omega

theorem bydateFold_length_lt (evs : List ChangeEvent) :
    ∀ m, ((∃ e ∈ evs, e.date ∈ m.map Prod.fst) ∨ ¬ (evs.map ChangeEvent.date).Nodup) →
      (bydateFold m evs).length < m.length + evs.length := by
  induction evs with
  | nil =>
    intro m h
    rcases h with ⟨e, he, -⟩ | h
    · exact absurd he (List.not_mem_nil e)
    · simp at h
  | cons e rest ih =>
    intro m h
    simp only [bydateFold, List.length_cons]
    by_cases hk : e.date ∈ m.map Prod.fst
    · have h2 : (pyDictInsert m e.date e).length = m.length := by
        rw [pyDictInsert_length, if_pos hk]
      have h1 := bydateFold_length_le rest (pyDictInsert m e.date e)
      omega
    · have h2 : (pyDictInsert m e.date e).length = m.length + 1 := by
        rw [pyDictInsert_length, if_neg hk]
      have hrec : (∃ e' ∈ rest, e'.date ∈ (pyDictInsert m e.date e).map Prod.fst)
          ∨ ¬ (rest.map ChangeEvent.date).Nodup := by
        rcases h with ⟨e', he', hd⟩ | hnd
        · rcases List.mem_cons.mp he' with rfl | he'
          · exact absurd hd hk
          · exact Or.inl ⟨e', he', pyDictInsert_keys_sub _ _ _ _ hd⟩
        · by_cases hin : e.date ∈ rest.map ChangeEvent.date
          · obtain ⟨e', he', hde⟩ := List.mem_map.mp hin
            refine Or.inl ⟨e', he', ?_⟩
            rw [hde]
            exact pyDictInsert_keys_self _ _ _
          · refine Or.inr fun hnodup => hnd ?_
            rw [List.map_cons, List.nodup_cons]
            exact ⟨hin, hnodup⟩
      have h1 := ih (pyDictInsert m e.date e) hrec
      omega

theorem bydateFold_nodup (evs : List ChangeEvent) :
    ∀ m, (m.map Prod.fst).Nodup → ((bydateFold m evs).map Prod.fst).Nodup := by
  induction evs with
  | nil => intro m h; simpa [bydateFold] using h
  | cons e rest ih =>
    intro m h
    simp only [bydateFold]
    exact ih _ (pyDictInsert_nodup _ _ _ h)

theorem bydateFold_lastwins (evs : List ChangeEvent) :
    ∀ m k v, (k, v) ∈ bydateFold m evs →
      ((evs.filter (fun e => e.date = k)).getLast? = some v)
      ∨ ((k, v) ∈ m ∧ k ∉ evs.map ChangeEvent.date) := by
  induction evs with
  | nil =>
    intro m k v h
    exact Or.inr ⟨by simpa [bydateFold] using h, by simp⟩
  | cons e rest ih =>
    intro m k v h
    simp only [bydateFold] at h
    rcases ih _ k v h with hl | ⟨hm, hnm⟩
    · left
      by_cases hek : e.date = k
      · have hne : rest.filter (fun e => e.date = k) ≠ [] := by
          intro h0; rw [h0] at hl; simp at hl
        rw [List.filter_cons_of_pos (by simp [hek])]
        cases hfl : rest.filter (fun e => e.date = k) with
        | nil => exact absurd hfl hne
        | cons x xs =>
          rw [hfl] at hl
          rw [List.getLast?_cons_cons]
          exact hl
      · rw [List.filter_cons_of_neg (by simp [hek])]
        exact hl
    · rcases pyDictInsert_mem m e.date e k v hm with ⟨hke, hve⟩ | ⟨hmm, hne⟩
      · left
        subst hve
        have hnil : rest.filter (fun e => e.date = k) = [] := by
          rw [List.filter_eq_nil_iff]
          intro a ha
          simp only [decide_eq_true_eq]
          intro hak
          exact hnm (List.mem_map.mpr ⟨a, ha, hak⟩)
        rw [List.filter_cons_of_pos (by simp [hke]), hnil]
        rfl
      · refine Or.inr ⟨hmm, ?_⟩
        rw [List.map_cons]
        intro hmem
        rcases List.mem_cons.mp hmem with hke | htl
        · exact hne hke
        · exact hnm htl

/-- C6: when the combined changelog-plus-comments list contains two
events with the same timestamp, the date-keyed dict built by
`get_all_events(is_sorted=True)` has strictly fewer entries, keeps at
most one event per timestamp, and for each timestamp keeps exactly the
last merged event. -/
theorem get_all_events_sorted_drops_duplicates (i : Issue)
    (evs : List ChangeEvent) (i' : Issue)
    (hlist : i.get_all_events_list = .ok (evs, i'))
    (hdup : ¬ (evs.map ChangeEvent.date).Nodup) :
    i.get_all_events_sorted = .ok (bydate evs, i')
  ∧ (bydate evs).length < evs.length
  ∧ ((bydate evs).map Prod.fst).Nodup
  ∧ ∀ k v, (k, v) ∈ bydate evs →
      (evs.filter (fun e => e.date = k)).getLast? = some v := by
  refine ⟨?_, ?_, ?_, ?_⟩
  · unfold Issue.get_all_events_sorted
    rw [hlist]
  · have h := bydateFold_length_lt evs [] (Or.inr hdup)
    simpa [bydate] using h
  · exact bydateFold_nodup evs [] (by simp)
  · intro k v hkv
    rcases bydateFold_lastwins evs [] k v hkv with hl | ⟨hm, -⟩
    · exact hl
    · exact absurd hm (List.not_mem_nil _)

/-- Witness for C6 on the concrete same-instant issue. -/
theorem get_all_events_sorted_drops_duplicates_witness :
    (bydate dupEvs).length < dupEvs.length :=
  (get_all_events_sorted_drops_duplicates dupIssue dupEvs dupCached rfl (by decide)).2.1

/-! ## C10: aliasing of the changelog cache -/

/-- C10: `get_all_events` returns the changelog list object itself and
appends the comments to it, so after one call the changelog cache
contains the comment events, `has_changelog()` turns true even for an
issue without changelog entries, and a second call appends (and returns)
the comment events once more. -/
theorem get_all_events_mutates_changelog_cache
    (i : Issue) (cl cs : List ChangeEvent) (i₀ i₀' : Issue)
    (h1 : i.get_changelog false = .ok (cl, i₀))
    (h2 : i₀.get_comments = (cs, i₀'))
    (h3 : cs ≠ []) :
    i.get_all_events_list = .ok (cl ++ cs, { i₀' with changelog := some (cl ++ cs) })
  ∧ ({ i₀' with changelog := some (cl ++ cs) } : Issue).has_changelog
      = .ok (true, { i₀' with changelog := some (cl ++ cs) })
  ∧ ({ i₀' with changelog := some (cl ++ cs) } : Issue).get_all_events_list
      = .ok ((cl ++ cs) ++ cs, { i₀' with changelog := some ((cl ++ cs) ++ cs) }) := by
  obtain ⟨hjc, hcs, raw, hraw⟩ := get_comments_shape i₀ cs i₀' h2 h3
  have hcm : ({ i₀' with changelog := some (cl ++ cs) } : Issue).get_comments
      = (cs, { i₀' with changelog := some (cl ++ cs) }) := by
    unfold Issue.get_comments
    simp only [hjc, hraw, hcs]
  refine ⟨?_, ?_, ?_⟩
  · simp only [Issue.get_all_events_list, h1, h2]
  · unfold Issue.has_changelog Issue.get_changelog
    simp [List.length_pos, h3]
  · simp only [Issue.get_all_events_list, Issue.get_changelog, hcm]

/-- Witness for C10: after one call on the concrete comment-only issue,
`has_changelog` is true. -/
theorem get_all_events_mutates_changelog_cache_witness :
    memCached.has_changelog = .ok (true, memCached) :=
  (get_all_events_mutates_changelog_cache memIssue [] [memComment]
      { memIssue with changelog := some [] }
      { memIssue with changelog := some [], comments := some [memComment] }
      rfl rfl (by decide)).2.1

/-! ## C7: windower termination facts -/

/-- C7: the inner loop of `search_project_issues` halves a saturated
non-zero window without advancing, the zero-width saturated window falls
back to the severity-by-type day partition, each window advances the
start strictly past the accepted window stop, and the outer loop stops
once the start passes the end date; the functions being accepted by
Lean's termination checker witnesses that the recursion is
well-founded. -/
theorem search_project_issues_termination_facts
    (searchW : Int → Int → List Nat) (searchDaily : Int → String → String → List Nat)
    (severities types : List String) (w e : Int) (c : Nat) :
    (c ≠ 0 → ¬ (searchW w (w + c)).length < MAX_ISSUE_SEARCH →
      slice_window searchW searchDaily severities types w c
        = slice_window searchW searchDaily severities types w (c / 2) ∧ c / 2 < c)
  ∧ (¬ (searchW w (w + ((0 : Nat) : Int))).length < MAX_ISSUE_SEARCH →
      slice_window searchW searchDaily severities types w 0
        = (search_project_daily_issues (searchDaily w) severities types, 0))
  ∧ (w ≤ e →
      search_windows searchW searchDaily severities types w e c
        = (slice_window searchW searchDaily severities types w c).1
          ++ search_windows searchW searchDaily severities types
              (w + (slice_window searchW searchDaily severities types w c).2 + 1) e c
      ∧ w + ((slice_window searchW searchDaily severities types w c).2 : Int)
          < w + (slice_window searchW searchDaily severities types w c).2 + 1)
  ∧ (¬ w ≤ e → search_windows searchW searchDaily severities types w e c = [])
  ∧ (∀ nbr : Nat,
      search_project_issues (some w) e nbr searchW searchDaily severities types
        = search_windows searchW searchDaily severities types w e
            (if nbr > MAX_ISSUE_SEARCH
             then (MAX_ISSUE_SEARCH * ((e - w).natAbs + 1)) / (nbr * 4)
             else (e - w).natAbs + 1)) := by
  refine ⟨?_, ?_, ?_, ?_, ?_⟩
  · intro hc hsat
    constructor
    · rw [slice_window]
      simp only [if_neg hsat, dif_neg hc]
    · omega
  · intro hsat
    rw [slice_window]
    rw [if_neg hsat]
    exact dif_pos rfl
  · intro hwe
    constructor
    · rw [search_windows, dif_pos hwe]
    · omega
  · intro hwe
    rw [search_windows, dif_neg hwe]
  · intro nbr
    rfl

/-- Witness for C7: past the end date the outer loop returns nothing. -/
theorem search_project_issues_termination_facts_witness :
    search_windows emptySearchW emptySearchDaily [] [] 0 (-1) 5 = [] :=
  (search_project_issues_termination_facts emptySearchW emptySearchDaily
      [] [] 0 (-1) 5).2.2.2.1 (by decide)

end SonarTools
